import Mathlib

/-!
Shallow embedding of the EPA CEMS extraction and partitioning logic of the
`pudl` repository (files `src/pudl/extract/epacems.py` and
`src/pudl/workflow/epacems.py`), together with proofs of the specified
properties of that logic.

Python dictionaries with string keys are embedded as association lists
(`List (String × _)` with `List.lookup`), Python sets of strings as
`List String` with membership, and pandas DataFrames in two views that match
how the code manipulates them: a column-oriented view for `_csv_to_dataframe`
(which selects, renames and casts whole columns) and a row-oriented view for
`pd.concat` / column assignment in `get_data_frame`, `extract` and
`epacems_process_partition`.
-/

namespace Pudl

/-- ASCII lower-casing of a character, as Python `str.lower` acts on the
ASCII state codes used by this code. -/
def lowerChar (c : Char) : Char :=
  if 'A' ≤ c ∧ c ≤ 'Z' then Char.ofNat (c.toNat + 32) else c

/-- ASCII upper-casing of a character. -/
def upperChar (c : Char) : Char :=
  if 'a' ≤ c ∧ c ≤ 'z' then Char.ofNat (c.toNat - 32) else c

/-- Embeds `state.lower()` on ASCII state codes. -/
def lowerStr (s : String) : String := ⟨s.data.map lowerChar⟩

/-- Embeds `state.upper()` on ASCII state codes. -/
def upperStr (s : String) : String := ⟨s.data.map upperChar⟩

/-- Embeds `RENAME_DICT` of `pudl/extract/epacems.py`: EPA CEMS source column
names (keys) and the canonical replacement names used when reading those
columns into PUDL (values), in the source order of the dict literal.
Commented-out entries of the source dict literal are omitted, as in the
source. -/
def RENAME_DICT : List (String × String) :=
  [ ("STATE", "state"),
    ("ORISPL_CODE", "plant_id_eia"),
    ("UNITID", "unitid"),
    ("OP_DATE", "op_date"),
    ("OP_HOUR", "op_hour"),
    ("OP_TIME", "operating_time_hours"),
    ("GLOAD (MW)", "gross_load_mw"),
    ("GLOAD", "gross_load_mw"),
    ("SLOAD (1000 lbs)", "steam_load_1000_lbs"),
    ("SLOAD (1000lb/hr)", "steam_load_1000_lbs"),
    ("SLOAD", "steam_load_1000_lbs"),
    ("SO2_MASS (lbs)", "so2_mass_lbs"),
    ("SO2_MASS", "so2_mass_lbs"),
    ("SO2_MASS_MEASURE_FLG", "so2_mass_measurement_code"),
    ("NOX_RATE (lbs/mmBtu)", "nox_rate_lbs_mmbtu"),
    ("NOX_RATE", "nox_rate_lbs_mmbtu"),
    ("NOX_RATE_MEASURE_FLG", "nox_rate_measurement_code"),
    ("NOX_MASS (lbs)", "nox_mass_lbs"),
    ("NOX_MASS", "nox_mass_lbs"),
    ("NOX_MASS_MEASURE_FLG", "nox_mass_measurement_code"),
    ("CO2_MASS (tons)", "co2_mass_tons"),
    ("CO2_MASS", "co2_mass_tons"),
    ("CO2_MASS_MEASURE_FLG", "co2_mass_measurement_code"),
    ("HEAT_INPUT (mmBtu)", "heat_content_mmbtu"),
    ("HEAT_INPUT", "heat_content_mmbtu"),
    ("FAC_ID", "facility_id"),
    ("UNIT_ID", "unit_id_epa") ]

/-- Embeds `IGNORE_COLS` of `pudl/extract/epacems.py`: any column whose name
exactly matches one of these is not read. -/
def IGNORE_COLS : List String :=
  [ "FACILITY_NAME",
    "SO2_RATE (lbs/mmBtu)",
    "SO2_RATE",
    "SO2_RATE_MEASURE_FLG",
    "CO2_RATE (tons/mmBtu)",
    "CO2_RATE",
    "CO2_RATE_MEASURE_FLG" ]

/-- The renaming applied to a single column name by
`df.rename(columns=RENAME_DICT)`: a column present in the dict is replaced by
its canonical name, any other column passes through unchanged. -/
def renameCol (c : String) : String :=
  match RENAME_DICT.lookup c with
  | some v => v
  | none => c

/-- A raw CSV file in column-oriented view: the header names each paired with
the column's cell values (as unparsed text). -/
abbrev Csv := List (String × List String)

/-- The column selection performed by
`pd.read_csv(..., usecols=lambda col: col not in IGNORE_COLS)`: only the
columns whose header is not in `IGNORE_COLS` are read. -/
def select_cols (csv : Csv) : Csv :=
  csv.filter (fun c => decide (c.1 ∉ IGNORE_COLS))

/-- The column renaming performed by `df.rename(columns=RENAME_DICT)`. -/
def rename_cols (csv : Csv) : Csv :=
  csv.map (fun c => (renameCol c.1, c.2))

end Pudl

namespace Pudl

/-- A helper: a `lookup` hit comes from a member of the association list. -/
theorem lookup_mem {l : List (String × String)} {a b : String}
    (h : l.lookup a = some b) : (a, b) ∈ l := by
  induction l with
  | nil => simp [List.lookup] at h
  | cons p l ih =>
    rw [List.lookup] at h
    by_cases hab : a == p.1
    · simp [hab] at h
      cases p with
      | mk k v =>
        have hk : a = k := by simpa [beq_iff_eq] using hab
        have hv : v = b := h
        subst hk
        subst hv
        exact List.mem_cons_self _ _
    · simp [hab] at h
      exact List.mem_cons_of_mem _ (ih h)

/-- No canonical name (a value of `RENAME_DICT`) is itself a key of
`RENAME_DICT`. -/
theorem rename_values_not_keys :
    ∀ p ∈ RENAME_DICT, RENAME_DICT.lookup p.2 = none := by decide

/-- The dtypes a CEMS column may be declared to have in the per-dataset type
table. -/
inductive Dtype where
  | string : Dtype
  | int64 : Dtype
  | float64 : Dtype
deriving DecidableEq

/-- A typed cell after casting: a plain string, a parsed integer, or a
validated floating-point literal (kept as its decimal text; no numeric
rounding is relevant to any property proved here). -/
inductive TCell where
  | s (v : String) : TCell
  | i (v : Int) : TCell
  | f (v : String) : TCell
deriving DecidableEq

/-- Value of an unsigned decimal digit string. -/
def digitsToNat (cs : List Char) : Nat :=
  cs.foldl (fun acc c => acc * 10 + (c.toNat - 48)) 0

/-- Parsing of an integer literal (optional sign, then decimal digits), as
performed when a column is cast to an integer dtype; any other text fails to
parse. -/
def parseIntLit (s : String) : Option Int :=
  match s.data with
  | '-' :: rest =>
      if rest ≠ [] ∧ rest.all Char.isDigit then some (-(digitsToNat rest : Int)) else none
  | '+' :: rest =>
      if rest ≠ [] ∧ rest.all Char.isDigit then some ((digitsToNat rest : Int)) else none
  | cs =>
      if cs ≠ [] ∧ cs.all Char.isDigit then some ((digitsToNat cs : Int)) else none

/-- Whether a string is a well-formed decimal floating-point literal
(optional sign, digits with at most one decimal point), as accepted when a
column is cast to a float dtype. -/
def isFloatLit (s : String) : Bool :=
  let cs := match s.data with
    | '-' :: rest => rest
    | '+' :: rest => rest
    | cs => cs
  cs ≠ [] ∧ cs ≠ ['.'] ∧ cs.all (fun c => c.isDigit ∨ c = '.') ∧
    (cs.filter (fun c => c = '.')).length ≤ 1

/-- Casting of one raw text value to a declared dtype. `none` means the value
does not parse as that dtype: the cast fails, it is never replaced by a
null/default. -/
def castValue : Dtype → String → Option TCell
  | .string, v => some (.s v)
  | .int64, v => (parseIntLit v).map TCell.i
  | .float64, v => if isFloatLit v then some (.f v) else none

/-- Modelled from the spec: `pudl.constants.COLUMN_DTYPES["epacems"]` is not
under `src/`; per the spec it is "an explicit per-dataset type table keyed by
canonical column name" giving each declared canonical column its canonical
type. The exact rows reconstruct that table for the canonical CEMS columns;
every property proved about casting holds for any contents of this table. -/
def COLUMN_DTYPES_epacems : List (String × Dtype) :=
  [ ("state", .string),
    ("plant_id_eia", .int64),
    ("unitid", .string),
    ("op_date", .string),
    ("op_hour", .int64),
    ("operating_time_hours", .float64),
    ("gross_load_mw", .float64),
    ("steam_load_1000_lbs", .float64),
    ("so2_mass_lbs", .float64),
    ("so2_mass_measurement_code", .string),
    ("nox_rate_lbs_mmbtu", .float64),
    ("nox_rate_measurement_code", .string),
    ("nox_mass_lbs", .float64),
    ("nox_mass_measurement_code", .string),
    ("co2_mass_tons", .float64),
    ("co2_mass_measurement_code", .string),
    ("heat_content_mmbtu", .float64),
    ("facility_id", .int64),
    ("unit_id_epa", .int64) ]

/-- The error with which a failed cast aborts the normalization of a file,
identifying the offending column and row. Modelled from the spec: the code
lets the failed cast raise out of `_csv_to_dataframe`, aborting the file;
the spec names this outcome `SchemaViolation` with column and row context. -/
structure SchemaViolation where
  column : String
  row : Nat
deriving DecidableEq

/-- Casts every value of one column to its declared dtype, failing on the
first value (0-based row index, offset by `idx`) that does not parse. -/
def castColumnAux (dt : Dtype) (name : String) : Nat → List String → Except SchemaViolation (List TCell)
  | _, [] => .ok []
  | idx, v :: vs =>
    match castValue dt v with
    | none => .error ⟨name, idx⟩
    | some t => (castColumnAux dt name (idx + 1) vs).map (fun ts => t :: ts)

/-- Embeds `df.astype({col: COLUMN_DTYPES["epacems"][col] for col in
COLUMN_DTYPES["epacems"] if col in df.columns})`: each column of the frame
that has a declared dtype is cast whole to that dtype (the cast fails the
whole frame if any of its values fails); a column with no declared dtype is
kept as untyped text. -/
def astype_frame : Csv → Except SchemaViolation (List (String × List TCell))
  | [] => .ok []
  | (c, vals) :: rest =>
    match COLUMN_DTYPES_epacems.lookup c with
    | none => (astype_frame rest).map (fun fr => (c, vals.map TCell.s) :: fr)
    | some dt =>
      match castColumnAux dt c 0 vals with
      | .error e => .error e
      | .ok tv => (astype_frame rest).map (fun fr => (c, tv) :: fr)

/-- Embeds `EpaCemsDatastore._csv_to_dataframe`: read the CSV keeping only
columns not in `IGNORE_COLS`, rename the surviving columns through
`RENAME_DICT`, then cast every column with a declared dtype. -/
def csv_to_dataframe (csv : Csv) : Except SchemaViolation (List (String × List TCell)) :=
  astype_frame (rename_cols (select_cols csv))

/-- A cast that returns `.ok` parsed every single value of the column. -/
theorem castAux_ok_all {dt : Dtype} {name : String} {k : Nat} {vs : List String}
    {tv : List TCell} (h : castColumnAux dt name k vs = .ok tv) :
    ∀ v ∈ vs, (castValue dt v).isSome := by
  induction vs generalizing k tv with
  | nil => intro v hv; cases hv
  | cons v vs ih =>
    intro w hw
    rw [castColumnAux] at h
    cases hc : castValue dt v with
    | none => simp [hc] at h
    | some t =>
      rw [hc] at h
      cases hr : castColumnAux dt name (k + 1) vs with
      | error e => rw [hr] at h; simp [Except.map] at h
      | ok tv2 =>
        rcases List.mem_cons.mp hw with rfl | hw2
        · simp [hc]
        · exact ih hr w hw2

/-- Mapping a function over an `Except` preserves errors. -/
theorem map_err {α β γ : Type} {f : α → β} {x : Except γ α} {e : γ}
    (h : Except.map f x = .error e) : x = .error e := by
  cases x with
  | error a => simpa [Except.map] using h
  | ok b => simp [Except.map] at h

/-- A successful mapped `Except` comes from a successful one. -/
theorem map_ok {α β γ : Type} {f : α → β} {x : Except γ α} {b : β}
    (h : Except.map f x = .ok b) : ∃ a, x = .ok a ∧ b = f a := by
  cases x with
  | error a => simp [Except.map] at h
  | ok a =>
    refine ⟨a, rfl, ?_⟩
    simpa [Except.map] using h.symm

/-- A cast that fails does so at a concrete offending value: the error names
the column, and the reported row (offset by the starting index `k`) holds a
value that does not parse as the declared dtype. -/
theorem castAux_err {dt : Dtype} {name : String} {k : Nat} {vs : List String}
    {e : SchemaViolation} (h : castColumnAux dt name k vs = .error e) :
    e.column = name ∧ k ≤ e.row ∧
      ∃ v, vs.get? (e.row - k) = some v ∧ castValue dt v = none := by
  induction vs generalizing k with
  | nil => simp [castColumnAux] at h
  | cons v vs ih =>
    rw [castColumnAux] at h
    cases hc : castValue dt v with
    | none =>
      simp only [hc] at h
      injection h with he
      rw [← he]
      exact ⟨rfl, Nat.le_refl _, v, by simp, hc⟩
    | some t =>
      simp only [hc] at h
      have hr := map_err h
      obtain ⟨h1, h2, w, hw, hcast⟩ := ih hr
      refine ⟨h1, Nat.le_of_succ_le h2, w, ?_, hcast⟩
      have hrow : e.row - k = (e.row - (k + 1)) + 1 := by omega
      rw [hrow]
      simpa using hw

/-- On a frame that casts successfully, every column with a declared dtype
had all of its values parse, and its fully-cast column is in the result. -/
theorem astype_ok_mem {l : Csv} {fr : List (String × List TCell)}
    (hok : astype_frame l = .ok fr) {c : String} {vals : List String} {dt : Dtype}
    (hmem : (c, vals) ∈ l) (hdt : COLUMN_DTYPES_epacems.lookup c = some dt) :
    (∀ v ∈ vals, (castValue dt v).isSome) ∧
      ∃ tv, castColumnAux dt c 0 vals = .ok tv ∧ (c, tv) ∈ fr := by
  induction l generalizing fr with
  | nil => cases hmem
  | cons p rest ih =>
    obtain ⟨pc, pvals⟩ := p
    rw [astype_frame] at hok
    rcases List.mem_cons.mp hmem with heq | htail
    · injection heq with h1 h2
      subst h1
      subst h2
      simp only [hdt] at hok
      cases hc : castColumnAux dt c 0 vals with
      | error e => simp [hc] at hok
      | ok tv =>
        simp only [hc] at hok
        obtain ⟨fr2, hr, rfl⟩ := map_ok hok
        exact ⟨castAux_ok_all hc, tv, rfl, List.mem_cons_self _ _⟩
    · cases hl : COLUMN_DTYPES_epacems.lookup pc with
      | none =>
        simp only [hl] at hok
        obtain ⟨fr2, hr, rfl⟩ := map_ok hok
        obtain ⟨hall, tv, hcast, hm⟩ := ih hr htail
        exact ⟨hall, tv, hcast, List.mem_cons_of_mem _ hm⟩
      | some dt2 =>
        simp only [hl] at hok
        cases hc : castColumnAux dt2 pc 0 pvals with
        | error e => simp [hc] at hok
        | ok tv2 =>
          simp only [hc] at hok
          obtain ⟨fr2, hr, rfl⟩ := map_ok hok
          obtain ⟨hall, tv, hcast, hm⟩ := ih hr htail
          exact ⟨hall, tv, hcast, List.mem_cons_of_mem _ hm⟩

/-- A frame whose cast fails has a concrete offending column and row: the
error's column is a declared-dtype column of the frame and the error's row
holds a value of it that does not parse. -/
theorem astype_err_mem {l : Csv} {e : SchemaViolation}
    (h : astype_frame l = .error e) :
    ∃ vals dt v, (e.column, vals) ∈ l ∧
      COLUMN_DTYPES_epacems.lookup e.column = some dt ∧
      vals.get? e.row = some v ∧ castValue dt v = none := by
  induction l with
  | nil => simp [astype_frame] at h
  | cons p rest ih =>
    obtain ⟨pc, pvals⟩ := p
    rw [astype_frame] at h
    cases hl : COLUMN_DTYPES_epacems.lookup pc with
    | none =>
      simp only [hl] at h
      have hr := map_err h
      obtain ⟨vals, dt, v, hm, hdt, hv, hcast⟩ := ih hr
      exact ⟨vals, dt, v, List.mem_cons_of_mem _ hm, hdt, hv, hcast⟩
    | some dt =>
      simp only [hl] at h
      cases hc : castColumnAux dt pc 0 pvals with
      | error e2 =>
        simp only [hc] at h
        injection h with he
        rw [← he]
        obtain ⟨hcol, _, v, hv, hcast⟩ := castAux_err hc
        refine ⟨pvals, dt, v, ?_, ?_, ?_, hcast⟩
        · rw [hcol]; exact List.mem_cons_self _ _
        · rw [hcol]; exact hl
        · simpa using hv
      | ok tv =>
        simp only [hc] at h
        have hr := map_err h
        obtain ⟨vals, dt2, v, hm, hdt, hv, hcast⟩ := ih hr
        exact ⟨vals, dt2, v, List.mem_cons_of_mem _ hm, hdt, hv, hcast⟩

/-- C1: column renaming is idempotent and collapses synonyms: applying the
rename mapping twice yields the same result as applying it once; every
historical source spelling is a key of the rename dict exactly once (so it
maps to exactly one canonical name); both "GLOAD" and "GLOAD (MW)" map to
`gross_load_mw`; and a column name with no entry in the synonym table passes
through unchanged. -/
theorem C1_rename_idempotent_and_synonyms :
    (∀ c, renameCol (renameCol c) = renameCol c) ∧
    (RENAME_DICT.map Prod.fst).Nodup ∧
    renameCol "GLOAD" = "gross_load_mw" ∧
    renameCol "GLOAD (MW)" = "gross_load_mw" ∧
    (∀ c, RENAME_DICT.lookup c = none → renameCol c = c) := by
  refine ⟨?_, by decide, by decide, by decide, ?_⟩
  · intro c
    cases h : RENAME_DICT.lookup c with
    | none => simp [renameCol, h]
    | some v =>
      have h1 : renameCol c = v := by simp [renameCol, h]
      have hv : RENAME_DICT.lookup v = none :=
        rename_values_not_keys (c, v) (lookup_mem h)
      rw [h1]
      simp [renameCol, hv]
  · intro c h
    simp [renameCol, h]

/-- Witness for C1 at a concrete unmapped column name. -/
theorem C1_witness :
    RENAME_DICT.lookup "SOME_NEW_COLUMN" = none ∧
      renameCol "SOME_NEW_COLUMN" = "SOME_NEW_COLUMN" :=
  ⟨by decide, C1_rename_idempotent_and_synonyms.2.2.2.2 "SOME_NEW_COLUMN" (by decide)⟩

/-- C2: every column whose header exactly matches an entry of `IGNORE_COLS`
is excluded from the normalized output; the exclusion happens before
renaming (`usecols` runs in `pd.read_csv`, before `df.rename`), so an
ignored raw column never appears in the output under any name: normalizing
the input with its ignored columns already removed yields the very same
output. -/
theorem C2_ignore_cols_excluded (csv : Csv) (c : String) (hc : c ∈ IGNORE_COLS) :
    c ∉ (select_cols csv).map Prod.fst ∧
      csv_to_dataframe csv = csv_to_dataframe (select_cols csv) := by
  constructor
  · intro hmem
    rcases List.mem_map.mp hmem with ⟨p, hp, hpc⟩
    have hkeep := List.of_mem_filter hp
    simp at hkeep
    rw [hpc] at hkeep
    exact hkeep hc
  · have hsel : select_cols (select_cols csv) = select_cols csv := by
      simp [select_cols, List.filter_filter]
    rw [csv_to_dataframe, csv_to_dataframe, hsel]

/-- Witness for C2 at a concrete CSV containing the ignored column
"SO2_RATE" with present, well-typed values. -/
theorem C2_witness :
    "SO2_RATE" ∉ (select_cols [("SO2_RATE", ["1.0"]), ("GLOAD", ["2.0"])]).map Prod.fst ∧
      csv_to_dataframe [("SO2_RATE", ["1.0"]), ("GLOAD", ["2.0"])] =
        csv_to_dataframe (select_cols [("SO2_RATE", ["1.0"]), ("GLOAD", ["2.0"])]) :=
  C2_ignore_cols_excluded [("SO2_RATE", ["1.0"]), ("GLOAD", ["2.0"])] "SO2_RATE" (by decide)

/-- C3: type coercion is total-or-fails. If normalization of a file
succeeds, then every column of the output that has a declared canonical
dtype had every one of its values cast successfully (none was replaced by a
null/default); if it fails, the `SchemaViolation` error identifies an
offending column and row: that column of the renamed frame has a declared
dtype and its value at the reported row does not parse as that dtype. -/
theorem C3_cast_total_or_fails (csv : Csv) :
    (∀ fr, csv_to_dataframe csv = .ok fr →
      ∀ c vals dt, (c, vals) ∈ rename_cols (select_cols csv) →
        COLUMN_DTYPES_epacems.lookup c = some dt →
        (∀ v ∈ vals, (castValue dt v).isSome) ∧
          ∃ tv, castColumnAux dt c 0 vals = .ok tv ∧ (c, tv) ∈ fr) ∧
    (∀ e, csv_to_dataframe csv = .error e →
      ∃ vals dt v, (e.column, vals) ∈ rename_cols (select_cols csv) ∧
        COLUMN_DTYPES_epacems.lookup e.column = some dt ∧
        vals.get? e.row = some v ∧ castValue dt v = none) :=
  ⟨fun _ hok _ _ _ hmem hdt => astype_ok_mem hok hmem hdt,
   fun _ herr => astype_err_mem herr⟩

/-- Witness for C3 at a concrete CSV whose single column casts fully. -/
theorem C3_witness :
    (∀ v ∈ ["10.5", "7"], (castValue Dtype.float64 v).isSome) ∧
      ∃ tv, castColumnAux Dtype.float64 "gross_load_mw" 0 ["10.5", "7"] = .ok tv ∧
        ("gross_load_mw", tv) ∈ [("gross_load_mw", [TCell.f "10.5", TCell.f "7"])] :=
  (C3_cast_total_or_fails [("GLOAD", ["10.5", "7"])]).1
    [("gross_load_mw", [TCell.f "10.5", TCell.f "7"])] rfl
    "gross_load_mw" ["10.5", "7"] Dtype.float64 (by decide) (by decide)

/-- Embeds the `EpaCemsPartition` NamedTuple: a (year, state) pair
identifying one unit of extraction work. -/
structure EpaCemsPartition where
  year : String
  state : String
deriving DecidableEq

/-- Embeds `EpaCemsPartition.get_key`: the hashable lookup key
`(self.year, self.state.lower())`. -/
def EpaCemsPartition.get_key (p : EpaCemsPartition) : String × String :=
  (p.year, lowerStr p.state)

/-- Embeds `EpaCemsPartition.get_filters`:
`dict(year=self.year, state=self.state.lower())`. -/
def EpaCemsPartition.get_filters (p : EpaCemsPartition) : List (String × String) :=
  [("year", p.year), ("state", lowerStr p.state)]

/-- Python string formatting with format spec `02` (fill `0`, width 2)
applied to an integer: the decimal rendering, left-padded with `0` to at
least two characters (a sign counts toward the width). -/
def pyFormat02 (m : Int) : String :=
  let s := toString m
  if s.length < 2 then "0" ++ s else s

/-- Embeds `EpaCemsPartition.get_monthly_file`: the stem
`f"{self.year}{self.state.lower()}{month:02}"`. The source performs no
range check on `month`. -/
def EpaCemsPartition.get_monthly_file (p : EpaCemsPartition) (month : Int) : String :=
  p.year ++ lowerStr p.state ++ pyFormat02 month

/-- A pandas DataFrame in row-oriented view: named columns and rectangular
rows; a `none` cell is pandas' missing-value marker (NaN). -/
structure Frame where
  cols : List String
  rows : List (List (Option String))
  hrows : ∀ r ∈ rows, r.length = cols.length

/-- Lexicographic comparison of character lists by code point. -/
def charListLe : List Char → List Char → Bool
  | [], _ => true
  | _ :: _, [] => false
  | a :: as, b :: bs =>
    if a.toNat < b.toNat then true
    else if b.toNat < a.toNat then false
    else charListLe as bs

/-- Lexicographic string order by code point, the order in which column
labels are sorted. -/
def strLe (a b : String) : Bool := charListLe a.data b.data

/-- The union of the column sets of several frames, deduplicated and
sorted, as `pd.concat(..., sort=True)` aligns columns. -/
def colsUnion (fs : List Frame) : List String :=
  List.insertionSort (fun a b => strLe a b) ((fs.flatMap Frame.cols).dedup)

/-- Realigns one row of a frame with columns `oldCols` onto the column list
`newCols`: a column the frame lacks is filled with the missing-value
marker. -/
def reindexRow (newCols oldCols : List String) (r : List (Option String)) :
    List (Option String) :=
  newCols.map (fun c =>
    match oldCols.indexOf? c with
    | some i => (r[i]?).getD none
    | none => none)

/-- Embeds `pd.concat(dfs, sort=True, copy=False, ignore_index=True)`: all
rows of all frames, in order, realigned onto the sorted union of the
column sets. -/
def concatFrames (fs : List Frame) : Frame where
  cols := colsUnion fs
  rows := fs.flatMap (fun f => f.rows.map (reindexRow (colsUnion fs) f.cols))
  hrows := by
    intro r hr
    rw [List.mem_flatMap] at hr
    obtain ⟨f, _, hr2⟩ := hr
    rw [List.mem_map] at hr2
    obtain ⟨r0, _, rfl⟩ := hr2
    simp [reindexRow]

/-- Embeds `EpaCemsDatastore.get_data_frame`: the concatenation of the 12
monthly frames, months 1 through 12 (`for month in range(1, 13)`), of one
(year, state) partition. `monthly` gives the normalized frame extracted
from each month's CSV. -/
def get_data_frame (monthly : Nat → Frame) : Frame :=
  concatFrames ((List.range' 1 12).map monthly)

/-- Embeds pandas column assignment `df[c] = v` with a scalar `v` (also the
semantics of `df.assign(c=v)`): overwrite column `c` if present, else
append it, every row receiving the value `v`. -/
def setConstCol (df : Frame) (c : String) (v : String) : Frame :=
  match df.cols.indexOf? c with
  | some i =>
    { cols := df.cols
      rows := df.rows.map (fun r => r.set i (some v))
      hrows := by
        intro r hr
        rw [List.mem_map] at hr
        obtain ⟨r0, hr0, rfl⟩ := hr
        simp [df.hrows r0 hr0] }
  | none =>
    { cols := df.cols ++ [c]
      rows := df.rows.map (fun r => r ++ [some v])
      hrows := by
        intro r hr
        rw [List.mem_map] at hr
        obtain ⟨r0, hr0, rfl⟩ := hr
        simp [df.hrows r0 hr0] }

/-- The values of column `c` of a frame, row by row (empty if the frame has
no such column). -/
def getCol (f : Frame) (c : String) : List (Option String) :=
  match f.cols.indexOf? c with
  | some i => f.rows.map (fun r => (r[i]?).getD none)
  | none => []

/-- Embeds the `extract` op of `pudl/extract/epacems.py`:
`ds.get_data_frame(partition).assign(year=partition.year)`. -/
def extract (p : EpaCemsPartition) (monthly : Nat → Frame) : Frame :=
  setConstCol (get_data_frame monthly) "year" p.year

/-- Embeds the row-stamping of `epacems_process_partition` in
`pudl/workflow/epacems.py`: `df["year"] = partition.year` then
`df["state"] = partition.state` (the state is written verbatim, with the
casing the partition carries). -/
def stamp_year_state (p : EpaCemsPartition) (df : Frame) : Frame :=
  setConstCol (setConstCol df "year" p.year) "state" p.state

/-- An index found by `indexOf?` is in range. -/
theorem indexOf?_lt_length {l : List String} {a : String} {i : Nat}
    (h : l.indexOf? a = some i) : i < l.length := by
  induction l generalizing i with
  | nil => simp at h
  | cons x l ih =>
    rw [List.indexOf?_cons] at h
    by_cases hx : x == a
    · simp [hx] at h
      subst h
      simp
    · simp [hx] at h
      obtain ⟨j, hj, rfl⟩ := h
      exact Nat.succ_lt_succ (ih hj)

/-- Appending a fresh column name puts it at index `l.length`. -/
theorem indexOf?_append_self {l : List String} {c : String} (h : c ∉ l) :
    (l ++ [c]).indexOf? c = some l.length := by
  induction l with
  | nil => simp [List.indexOf?_cons]
  | cons x l ih =>
    have hx : ¬(x == c) := by
      simp only [beq_iff_eq]
      intro hxc
      exact h (hxc ▸ List.mem_cons_self x l)
    rw [List.cons_append, List.indexOf?_cons]
    simp only [hx, if_false]
    rw [ih (fun hc => h (List.mem_cons_of_mem _ hc))]
    simp

/-- The function `indexOf?` misses exactly the absent names. -/
theorem indexOf?_eq_none_of_not_mem {l : List String} {c : String} (h : c ∉ l) :
    l.indexOf? c = none := by
  rw [List.indexOf?_eq_none_iff]
  intro x hx
  simp only [beq_iff_eq]
  intro hxc
  exact h (hxc ▸ hx)

/-- Assigning a constant column makes every row hold that value there. -/
theorem getCol_setConstCol (df : Frame) (c : String) (v : String) :
    getCol (setConstCol df c v) c = List.replicate df.rows.length (some v) := by
  cases h : df.cols.indexOf? c with
  | some i =>
    have hi : i < df.cols.length := indexOf?_lt_length h
    rw [List.eq_replicate_iff]
    constructor
    · simp [getCol, setConstCol, h]
    · intro b hb
      simp only [getCol, setConstCol, h, List.map_map, List.mem_map] at hb
      obtain ⟨r0, hr0, rfl⟩ := hb
      have hlen : i < r0.length := by rw [df.hrows r0 hr0]; exact hi
      simp [List.getElem?_set_self, hlen]
  | none =>
    have hc : c ∉ df.cols := by
      rw [List.indexOf?_eq_none_iff] at h
      intro hmem
      exact h c hmem (by simp)
    rw [List.eq_replicate_iff]
    constructor
    · simp [getCol, setConstCol, h, indexOf?_append_self hc]
    · intro b hb
      simp only [getCol, setConstCol, h, indexOf?_append_self hc, List.map_map,
        List.mem_map] at hb
      obtain ⟨r0, hr0, rfl⟩ := hb
      have hlen : r0.length = df.cols.length := df.hrows r0 hr0
      simp [← hlen, List.getElem?_concat_length]

/-- Assigning a column never changes the number of rows. -/
theorem setConstCol_rows_length (df : Frame) (c : String) (v : String) :
    (setConstCol df c v).rows.length = df.rows.length := by
  cases h : df.cols.indexOf? c <;> simp [setConstCol, h]

/-- Concatenation preserves the total row count. -/
theorem concat_rows_length (fs : List Frame) :
    (concatFrames fs).rows.length = (fs.map (fun f => f.rows.length)).sum := by
  show (fs.flatMap fun f => f.rows.map (reindexRow (colsUnion fs) f.cols)).length = _
  rw [List.length_flatMap]
  congr 1
  congr 1
  funext f
  simp

/-- The concatenated frame's columns are exactly the union of the input
frames' columns. -/
theorem mem_concat_cols (fs : List Frame) (c : String) :
    c ∈ (concatFrames fs).cols ↔ ∃ f ∈ fs, c ∈ f.cols := by
  show c ∈ colsUnion fs ↔ _
  rw [colsUnion, (List.perm_insertionSort _ _).mem_iff, List.mem_dedup,
    List.mem_flatMap]

/-- Every row of every input frame appears, realigned, in the
concatenation. -/
theorem reindex_mem_concat {fs : List Frame} {f : Frame} (hf : f ∈ fs)
    {r : List (Option String)} (hr : r ∈ f.rows) :
    reindexRow (colsUnion fs) f.cols r ∈ (concatFrames fs).rows :=
  List.mem_flatMap.mpr ⟨f, hf, List.mem_map.mpr ⟨r, hr, rfl⟩⟩

/-- Realigning a row fills every column the source frame lacks with the
missing-value marker. -/
theorem reindex_fill {newCols oldCols : List String} {r : List (Option String)}
    {j : Nat} (hj : j < newCols.length)
    (hno : newCols.get ⟨j, hj⟩ ∉ oldCols) :
    (reindexRow newCols oldCols r)[j]? = some none := by
  rw [reindexRow, List.getElem?_map]
  have hjget : newCols[j]? = some (newCols.get ⟨j, hj⟩) := by
    simp [List.getElem?_eq_getElem, hj]
  rw [hjget]
  have hne := indexOf?_eq_none_of_not_mem hno
  rw [List.get_eq_getElem] at hne
  simp [hne]

/-- C4: aggregation of the 12 monthly frames preserves rows exactly: the
row count of the concatenated partition dataset is the sum of the 12
monthly row counts; its column set is the union of the 12 monthly column
sets; and each monthly row appears realigned in the result with the
missing-value marker at every column its own month lacked. -/
theorem C4_concat_preserves_rows_and_columns (monthly : Nat → Frame) :
    (get_data_frame monthly).rows.length
        = ((List.range' 1 12).map (fun m => (monthly m).rows.length)).sum ∧
    (∀ c, c ∈ (get_data_frame monthly).cols ↔
      ∃ m ∈ List.range' 1 12, c ∈ (monthly m).cols) ∧
    (∀ m ∈ List.range' 1 12, ∀ r ∈ (monthly m).rows,
      reindexRow (get_data_frame monthly).cols (monthly m).cols r
          ∈ (get_data_frame monthly).rows ∧
      ∀ j (hj : j < (get_data_frame monthly).cols.length),
        (get_data_frame monthly).cols.get ⟨j, hj⟩ ∉ (monthly m).cols →
        (reindexRow (get_data_frame monthly).cols (monthly m).cols r)[j]?
          = some none) := by
  refine ⟨?_, ?_, ?_⟩
  · rw [get_data_frame, concat_rows_length, List.map_map]
    rfl
  · intro c
    rw [get_data_frame, mem_concat_cols]
    constructor
    · rintro ⟨f, hf, hc⟩
      rcases List.mem_map.mp hf with ⟨m, hm, rfl⟩
      exact ⟨m, hm, hc⟩
    · rintro ⟨m, hm, hc⟩
      exact ⟨monthly m, List.mem_map.mpr ⟨m, hm, rfl⟩, hc⟩
  · intro m hm r hr
    refine ⟨reindex_mem_concat (List.mem_map.mpr ⟨m, hm, rfl⟩) hr, ?_⟩
    intro j hj hno
    exact reindex_fill hj hno

/-- A one-row monthly frame carrying only a load column, for witnesses. -/
def frameGload : Frame := ⟨["gross_load_mw"], [[some "1.5"]], by decide⟩

/-- A one-row monthly frame carrying only a state column, for witnesses. -/
def frameState : Frame := ⟨["state"], [[some "TX"]], by decide⟩

/-- A concrete year of monthly frames whose column sets differ across
months, for witnesses. -/
def monthlyMixed : Nat → Frame := fun m => if m = 1 then frameGload else frameState

/-- Witness for C4: month 1 lacks the "state" column present in the other
months, so its realigned row is in the output with the missing-value
marker in the "state" position. -/
theorem C4_witness :
    reindexRow (get_data_frame monthlyMixed).cols (monthlyMixed 1).cols [some "1.5"]
        ∈ (get_data_frame monthlyMixed).rows ∧
      (reindexRow (get_data_frame monthlyMixed).cols (monthlyMixed 1).cols
        [some "1.5"])[1]? = some none :=
  ⟨((C4_concat_preserves_rows_and_columns monthlyMixed).2.2 1 (by decide)
      [some "1.5"] (by decide)).1,
   ((C4_concat_preserves_rows_and_columns monthlyMixed).2.2 1 (by decide)
      [some "1.5"] (by decide)).2 1 (by decide) (by decide)⟩

/-- C5: every row of an extracted partition dataset carries
`year = partition.year`, taken from the partition identity: the year column
is constantly the partition key's year; and two extractions whose monthly
frames merely agree in row counts (whatever their date-like cell contents)
produce the same year column. -/
theorem C5_year_stamped_from_partition (p : EpaCemsPartition) (monthly : Nat → Frame) :
    (getCol (extract p monthly) "year"
      = List.replicate ((extract p monthly).rows.length) (some p.year)) ∧
    (∀ monthly2 : Nat → Frame,
      (List.range' 1 12).map (fun m => (monthly m).rows.length)
        = (List.range' 1 12).map (fun m => (monthly2 m).rows.length) →
      getCol (extract p monthly) "year" = getCol (extract p monthly2) "year") := by
  constructor
  · rw [extract, getCol_setConstCol, setConstCol_rows_length]
  · intro monthly2 h
    rw [extract, getCol_setConstCol, extract, getCol_setConstCol]
    congr 1
    rw [get_data_frame, concat_rows_length, get_data_frame, concat_rows_length,
      List.map_map, List.map_map]
    exact congrArg List.sum h

/-- Witness for C5: two concrete extractions with different cell contents
but equal monthly row counts have identical year columns. -/
theorem C5_witness :
    getCol (extract ⟨"2020", "ID"⟩ monthlyMixed) "year"
      = getCol (extract ⟨"2020", "ID"⟩ (fun _ => frameState)) "year" :=
  (C5_year_stamped_from_partition ⟨"2020", "ID"⟩ monthlyMixed).2
    (fun _ => frameState) (by decide)

/-- C6 counterexample: the source `get_monthly_file` performs no range
check and raises no error; at month 13 it returns the ordinary stem
"2020id13" instead of failing with `InvalidMonth` as the claim states. -/
theorem C6_counterexample :
    EpaCemsPartition.get_monthly_file ⟨"2020", "ID"⟩ 13 = "2020id13" := by decide

/-- C6 (amended): for months 1..12, `get_monthly_file` returns the stem
`{year}{lowercase(state)}{2-digit zero-padded month}`; for months outside
1..12 it does not fail — the same formatting is applied, e.g. month 13
yields `{year}{lowercase(state)}13` and month 0 yields
`{year}{lowercase(state)}00`. -/
theorem C6_monthly_file_stem (p : EpaCemsPartition) (m : Int) :
    (1 ≤ m → m ≤ 12 → p.get_monthly_file m
        = p.year ++ lowerStr p.state
            ++ (if m < 10 then "0" ++ toString m else toString m)) ∧
    p.get_monthly_file 13 = p.year ++ lowerStr p.state ++ "13" ∧
    p.get_monthly_file 0 = p.year ++ lowerStr p.state ++ "00" := by
  refine ⟨?_, rfl, rfl⟩
  intro h1 h2
  interval_cases m <;> rfl

/-- Witness for C6 at month 5. -/
theorem C6_witness :
    EpaCemsPartition.get_monthly_file ⟨"2020", "ID"⟩ 5
      = "2020" ++ lowerStr "ID" ++ (if (5 : Int) < 10 then "0" ++ toString (5 : Int) else toString (5 : Int)) :=
  (C6_monthly_file_stem ⟨"2020", "ID"⟩ 5).1 (by decide) (by decide)

/-- Embeds `gather_partitions` of `pudl/extract/epacems.py` (and the
`itertools.product` enumeration of `EpaCemsPipeline.build`): one partition
per (year, state) pair of the configuration, years outermost. -/
def gather_partitions (years states : List String) : List EpaCemsPartition :=
  years.flatMap (fun y => states.map (fun s => ⟨y, s⟩))

/-- Each (year, state) pair occurs in the enumeration with the product of
its multiplicities in the configured lists. -/
theorem count_gather (years states : List String) (hy : years.Nodup)
    (hs : states.Nodup) (y s : String) :
    (gather_partitions years states).count ⟨y, s⟩
      = if y ∈ years ∧ s ∈ states then 1 else 0 := by
  induction years with
  | nil => simp [gather_partitions]
  | cons a ys ih =>
    rw [List.nodup_cons] at hy
    rw [gather_partitions, List.flatMap_cons, List.count_append]
    have h2 := ih hy.2
    rw [gather_partitions] at h2
    rw [h2]
    by_cases hya : y = a
    · subst hya
      have h1 : (states.map fun s2 => (⟨y, s2⟩ : EpaCemsPartition)).count ⟨y, s⟩
          = states.count s := by
        have hinj : Function.Injective (fun s2 => (⟨y, s2⟩ : EpaCemsPartition)) := by
          intro u v huv
          simpa using huv
        exact List.count_map_of_injective states (fun s2 => (⟨y, s2⟩ : EpaCemsPartition)) hinj s
      rw [h1]
      by_cases hsm : s ∈ states
      · simp [hsm, hy.1, List.count_eq_one_of_mem hs hsm]
      · simp [hsm, List.count_eq_zero_of_not_mem hsm]
    · have h1 : (states.map fun s2 => (⟨a, s2⟩ : EpaCemsPartition)).count ⟨y, s⟩ = 0 := by
        rw [List.count_eq_zero]
        intro hmem
        rcases List.mem_map.mp hmem with ⟨s2, _, heq⟩
        apply hya
        have := congrArg EpaCemsPartition.year heq
        exact this.symm
      rw [h1]
      simp [hya]

/-- C7: partition enumeration is a faithful Cartesian product: it yields
`|years| * |states|` partition identifiers, and when the configured years
and states are duplicate-free every (year, state) pair appears exactly
once. -/
theorem C7_partitions_cartesian_product (years states : List String) :
    (gather_partitions years states).length = years.length * states.length ∧
    (years.Nodup → states.Nodup → ∀ y s,
      (gather_partitions years states).count ⟨y, s⟩
        = if y ∈ years ∧ s ∈ states then 1 else 0) := by
  constructor
  · rw [gather_partitions, List.length_flatMap]
    induction years with
    | nil => simp
    | cons a ys ih => simp [ih, Nat.succ_mul, Nat.add_comm]
  · intro hy hs y s
    exact count_gather years states hy hs y s

/-- Witness for C7 at a concrete two-by-two configuration. -/
theorem C7_witness :
    (gather_partitions ["2019", "2020"] ["ID", "TX"]).count ⟨"2020", "ID"⟩
      = if "2020" ∈ ["2019", "2020"] ∧ "ID" ∈ ["ID", "TX"] then 1 else 0 :=
  (C7_partitions_cartesian_product ["2019", "2020"] ["ID", "TX"]).2
    (by decide) (by decide) "2020" "ID"

/-- Modelled from the spec: `pudl.constants.cems_states` is not under
`src/`; per the spec it is "the full fixed registry of known state codes".
These are the contiguous-US state codes plus DC; every property proved
below holds for any contents of this registry. -/
def cems_states_keys : List String :=
  [ "AL", "AR", "AZ", "CA", "CO", "CT", "DC", "DE", "FL", "GA", "IA", "ID",
    "IL", "IN", "KS", "KY", "LA", "MA", "MD", "ME", "MI", "MN", "MO", "MS",
    "MT", "NC", "ND", "NE", "NH", "NJ", "NM", "NV", "NY", "OH", "OK", "OR",
    "PA", "RI", "SC", "SD", "TN", "TX", "UT", "VA", "VT", "WA", "WI", "WV",
    "WY" ]

/-- Modelled from the spec: `pudl.constants.PUDL_TABLES["epacems"]` is not
under `src/`; per the spec the partition scheme is always fixed to
`{table: [year-dimension, state-dimension]}` for the single CEMS table,
whose name the neighbouring source line hardcodes. -/
def PUDL_TABLES_epacems : String := "hourly_emissions_epacems"

/-- The validated parameter dictionary produced by
`EpaCemsPipeline.validate_params` (keys `epacems_years`, `epacems_states`
and `partition`). -/
structure EpacemsParams where
  epacems_years : List String
  epacems_states : List String
  partition : List (String × List String)
deriving DecidableEq

/-- The two exceptions `validate_params` can raise: the
`AssertionError('Partion not recognized')` of `_validate_params_partition`
and the `AssertionError('No partition found for EPA CEMS...')` of
`validate_params` itself. -/
inductive EtlError where
  | partitionNotRecognized : EtlError
  | noPartitionFound : EtlError
deriving DecidableEq

/-- The keys of the `epacems_dict` at the moment
`_validate_params_partition` is called. -/
def epacems_param_keys : List String :=
  ["epacems_years", "epacems_states", "partition"]

/-- Embeds `_validate_params_partition` of `pudl/workflow/epacems.py`,
specialized to its call site (where the `partition` key is always present,
so the outer `except KeyError` branch is dead): for each table, if the
partition dict has an entry for it, every listed partition must be an
existing parameter key, else `AssertionError('Partion not recognized')`; a
table absent from the partition dict is skipped (`except KeyError: pass`).
The partition dict itself is returned unchanged. -/
def check_partition_tables (etlKeys : List String)
    (partitionDict : List (String × List String)) (tables : List String) :
    Except Unit (List (String × List String)) :=
  if tables.all (fun t =>
      match partitionDict.lookup t with
      | none => true
      | some parts => parts.all (fun pk => etlKeys.contains pk))
  then .ok partitionDict
  else .error ()

/-- Embeds the "all" expansion of `EpaCemsPipeline.validate_params`: if
the states list is non-empty and its first entry lower-cases to "all", it
is replaced by `sorted(pc.cems_states.keys())`; otherwise it is kept as
given. -/
def expand_states (states : List String) : List String :=
  match states with
  | [] => states
  | s :: _ =>
    if lowerStr s = "all"
    then List.insertionSort (fun a b => strLe a b) cems_states_keys
    else states

/-- Embeds `EpaCemsPipeline.validate_params`: read years and states
(defaulting to `[]`), expand a leading "all" to the sorted registry of
known state codes, fix the partition scheme to
`{'hourly_emissions_epacems': ['epacems_years', 'epacems_states']}`,
validate it, raise if the validated partition dict is empty, and return
`None` (here `.ok none`) when either years or states is empty. -/
def validate_params (years states : List String) :
    Except EtlError (Option EpacemsParams) :=
  match check_partition_tables epacems_param_keys
      [("hourly_emissions_epacems", ["epacems_years", "epacems_states"])]
      [PUDL_TABLES_epacems] with
  | .error _ => .error .partitionNotRecognized
  | .ok pd2 =>
    if pd2.isEmpty then .error .noPartitionFound
    else if years.isEmpty || (expand_states states).isEmpty then .ok none
    else .ok (some ⟨years, expand_states states, pd2⟩)

/-- C8: a states value of "all" expands to the full fixed registry of
known state codes (sorted); and whenever the years list or the states
list is empty after expansion, `validate_params` returns the empty/skip
result `None` rather than raising. -/
theorem C8_validate_params_all_and_empty (years states : List String) :
    (validate_params years [] = .ok none) ∧
    (validate_params [] states = .ok none) ∧
    (years ≠ [] →
      validate_params years ["all"]
        = .ok (some ⟨years,
            List.insertionSort (fun a b => strLe a b) cems_states_keys,
            [("hourly_emissions_epacems", ["epacems_years", "epacems_states"])]⟩)) := by
  refine ⟨?_, ?_, ?_⟩
  · cases years with
    | nil => rfl
    | cons y ys => rfl
  · rfl
  · intro h
    cases years with
    | nil => exact absurd rfl h
    | cons y ys => rfl

/-- Witness for C8: a concrete non-empty years list with states ["all"]. -/
theorem C8_witness :
    validate_params ["2020"] ["all"]
      = .ok (some ⟨["2020"],
          List.insertionSort (fun a b => strLe a b) cems_states_keys,
          [("hourly_emissions_epacems", ["epacems_years", "epacems_states"])]⟩) :=
  (C8_validate_params_all_and_empty ["2020"] []).2.2 (by decide)

/-- C10: the branch of `validate_params` that raises
'No partition found for EPA CEMS' is unreachable: the partition scheme is
unconditionally the fixed non-empty dict, `_validate_params_partition`
returns it unchanged (and non-empty) for this input, so the emptiness test
never succeeds and `validate_params` always returns normally. -/
theorem C10_no_partition_error_unreachable (years states : List String) :
    check_partition_tables epacems_param_keys
        [("hourly_emissions_epacems", ["epacems_years", "epacems_states"])]
        [PUDL_TABLES_epacems]
      = .ok [("hourly_emissions_epacems", ["epacems_years", "epacems_states"])] ∧
    ([("hourly_emissions_epacems", ["epacems_years", "epacems_states"])]
      : List (String × List String)) ≠ [] ∧
    ∃ r, validate_params years states = .ok r := by
  refine ⟨rfl, by decide, ?_⟩
  have hchk : check_partition_tables epacems_param_keys
      [("hourly_emissions_epacems", ["epacems_years", "epacems_states"])]
      [PUDL_TABLES_epacems]
    = .ok [("hourly_emissions_epacems", ["epacems_years", "epacems_states"])] := rfl
  simp only [validate_params, hchk, List.isEmpty_cons, Bool.false_eq_true, if_false]
  split
  · exact ⟨none, rfl⟩
  · exact ⟨some _, rfl⟩

/-- C9 counterexample: a partition whose configured state is lower-case is
written to the output state column verbatim, not upper-cased: the written
value "id" differs from its upper-casing. -/
theorem C9_counterexample :
    getCol (stamp_year_state ⟨"2020", "id"⟩ ⟨[], [[]], by decide⟩) "state"
        = [some "id"] ∧
      upperStr "id" ≠ "id" := by
  constructor
  · rfl
  · decide

/-- C9 (amended): the state is lower-cased whenever used as a lookup key
(`get_key`, `get_filters`), and the state value written to the output
dataset's state column is the partition's state verbatim (upper-case
exactly when the configured state code is upper-case). -/
theorem C9_state_casing (p : EpaCemsPartition) (df : Frame) :
    p.get_key = (p.year, lowerStr p.state) ∧
    (p.get_filters).lookup "state" = some (lowerStr p.state) ∧
    getCol (stamp_year_state p df) "state"
      = List.replicate df.rows.length (some p.state) := by
  refine ⟨rfl, rfl, ?_⟩
  rw [stamp_year_state, getCol_setConstCol, setConstCol_rows_length]

end Pudl
